import Mathlib

/-!
# Verification of the epubverify coverage-audit scripts

Shallow embedding of the three audit scripts of the repository
(`scripts/java-audit.py`, `scripts/schematron-audit.py`,
`scripts/relaxng-audit.py`) and proofs about the reconciliation,
reporting and gap-analysis logic they implement.

Python strings are modelled as Lean `String`s (with Python string
truthiness rendered as `≠ ""`), Python dicts keyed by check ID as
association lists `List (String × _)` in insertion order, and Python
lists as Lean `List`s.
-/

namespace EpubVerify

/-! ## java-audit.py — data structures

`MessageInfo` embeds the dataclass of `scripts/java-audit.py`
lines 280-293; field defaults mirror the Python defaults. -/

structure MessageInfo where
  code : String
  severity : String := ""
  message_text : String := ""
  java_files : List String := []
  category : String := ""
  in_go_code : Bool := false
  in_bdd_tests : Bool := false
  override_status : String := ""
  override_note : String := ""
  deriving Repr, DecidableEq

/-- Embeds the `MessageInfo.status` property (`java-audit.py` lines 295-304).
Python's `if self.override_status:` tests string truthiness, i.e. the
string being non-empty. -/
def MessageInfo.status (m : MessageInfo) : String :=
  if m.override_status ≠ "" then m.override_status
  else if m.severity = "SUPPRESSED" then "suppressed"
  else if m.in_go_code then "implemented"
  else "missing"

/-- Embeds the `AuditResult` dataclass of `java-audit.py` lines 307-318. -/
structure AuditResult where
  epubcheck_commit : String := ""
  total_codes : Nat := 0
  implemented : Nat := 0
  tested : Nat := 0
  suppressed : Nat := 0
  wontfix : Nat := 0
  missing : Nat := 0
  -- the source field is named `partial`, a reserved word in Lean
  partCount : Nat := 0
  messages : List MessageInfo := []
  deriving Repr, DecidableEq

/-- One iteration of the counting loop of `generate_report`
(`java-audit.py` lines 554-568): bump the bucket counter selected by the
message's status (an unrecognised status bumps nothing), then bump
`tested` when the message was found in BDD tests. -/
def reportStep (r : AuditResult) (msg : MessageInfo) : AuditResult :=
  let r1 :=
    if msg.status = "implemented" then { r with implemented := r.implemented + 1 }
    else if msg.status = "suppressed" then { r with suppressed := r.suppressed + 1 }
    else if msg.status = "wontfix" then { r with wontfix := r.wontfix + 1 }
    else if msg.status = "partial" then { r with partCount := r.partCount + 1 }
    else if msg.status = "missing" then { r with missing := r.missing + 1 }
    else r
  if msg.in_bdd_tests then { r1 with tested := r1.tested + 1 } else r1

/-- Embeds `generate_report` (`java-audit.py` lines 548-570).  The dict
`messages` is modelled as the list of its values; `sorted(...,
key=lambda m: m.code)` is a stable sort on the `code` field. -/
def generate_report (messages : List MessageInfo) (commit : String) : AuditResult :=
  let sortedMsgs := messages.mergeSort (fun a b => a.code ≤ b.code)
  sortedMsgs.foldl reportStep
    { epubcheck_commit := commit, total_codes := messages.length, messages := sortedMsgs }

/-- A message carrying the documented override status `note`
(`java-audit.py` line 100 documents `note` as an override status). -/
def noteOverrideMsg : MessageInfo := { code := "ACC-001", override_status := "note" }

/-! ## java-audit.py — overrides -/

/-- One `KNOWN_OVERRIDES` entry value: a dict with optional `status`
and `note` keys, read via `override.get("status", "")` and
`override.get("note", "")` (`java-audit.py` lines 540-541); an absent
key is the empty string. -/
structure OverrideEntry where
  status : String := ""
  note : String := ""
  deriving Repr, DecidableEq

/-- Embeds `apply_overrides` (`java-audit.py` lines 536-541).  The
`messages` dict is modelled as the list of its values (its keys are the
`code` fields, unique because the dict is keyed by code) and
`KNOWN_OVERRIDES` as an association list in insertion order.
`if code in messages:` followed by field assignment on `messages[code]`
becomes a map rewriting the element whose `code` matches. -/
def apply_overrides (overrides : List (String × OverrideEntry))
    (msgs : List MessageInfo) : List MessageInfo :=
  overrides.foldl (fun acc co =>
    acc.map fun m =>
      if m.code = co.1 then
        { m with override_status := co.2.status, override_note := co.2.note }
      else m) msgs

/-- Forget the two fields `apply_overrides` writes, keeping all
others. -/
def stripOverrideFields (m : MessageInfo) : MessageInfo :=
  { m with override_status := "", override_note := "" }

/-! ## java-audit.py — report emitters -/

/-- The aggregate-count lines printed by `print_text_report`
(`java-audit.py` lines 582-588), as (label, value) pairs in print
order. -/
def textReportCountLines (r : AuditResult) : List (String × Nat) :=
  [("Total message IDs defined", r.total_codes),
   ("Implemented", r.implemented),
   ("Tested (BDD)", r.tested),
   ("Suppressed by epubcheck", r.suppressed),
   ("Wontfix (too niche)", r.wontfix),
   ("Partial", r.partCount),
   ("MISSING", r.missing)]

/-- The `summary` object written by `print_json_report`
(`java-audit.py` lines 671-679), as (key, value) pairs in insertion
order. -/
def jsonSummary (r : AuditResult) : List (String × Nat) :=
  [("total", r.total_codes),
   ("implemented", r.implemented),
   ("tested_bdd", r.tested),
   ("suppressed", r.suppressed),
   ("wontfix", r.wontfix),
   ("partial", r.partCount),
   ("missing", r.missing)]

/-- One element of the `messages` array of the JSON report
(`java-audit.py` lines 682-693). -/
structure JsonMessageEntry where
  code : String
  severity : String
  message : String
  category : String
  java_files : List String
  status : String
  in_go_code : Bool
  in_bdd_tests : Bool
  note : String
  deriving Repr, DecidableEq

/-- The structured value serialised by `print_json_report`. -/
structure JsonReport where
  epubcheck_commit : String
  summary : List (String × Nat)
  messages : List JsonMessageEntry
  deriving Repr, DecidableEq

/-- Embeds `print_json_report` (`java-audit.py` lines 667-696) up to
serialisation: the exact structured value handed to `json.dump`.
`json.dump` with a fixed indent is a pure function of this value, so
byte-identity of the printed output is equality of this value. -/
def print_json_report (r : AuditResult) : JsonReport :=
  { epubcheck_commit := r.epubcheck_commit,
    summary := jsonSummary r,
    messages := r.messages.map fun m =>
      { code := m.code, severity := m.severity, message := m.message_text,
        category := m.category, java_files := m.java_files, status := m.status,
        in_go_code := m.in_go_code, in_bdd_tests := m.in_bdd_tests,
        note := m.override_note } }

/-! ## java-audit.py — source scans -/

/-- One Java source file of the reference snapshot: its file name, its
stem (`java_file.stem`, the `short_name` of line 469), and its text. -/
structure JavaFile where
  name : String
  stem : String
  content : List Char
  deriving Repr, DecidableEq

/-- Characters of the regex class `[A-Z_0-9a-z]` in the pattern
`MessageId\.([A-Z_0-9a-z]+)` (`java-audit.py` line 454). -/
def isIdentChar (c : Char) : Bool := c.isUpper || c = '_' || c.isDigit || c.isLower

/-- Embeds `re.finditer(r'MessageId\.([A-Z_0-9a-z]+)', content)`
(`java-audit.py` lines 454, 471): left-to-right non-overlapping
matches; each match is the maximal identifier run after the literal
`MessageId.`, and scanning resumes after the match. -/
def scanMessageIds : List Char → List String
  | [] => []
  | c :: rest =>
    if (c :: rest).take 10 = "MessageId.".toList then
      let tok := (rest.drop 9).takeWhile isIdentChar
      if tok.isEmpty then scanMessageIds rest
      else String.mk tok :: scanMessageIds ((rest.drop 9).drop tok.length)
    else scanMessageIds rest
termination_by cs => cs.length
decreasing_by
  all_goals simp [List.length_drop]
  all_goals omega

/-- `code.replace("-", "_")`, building the `enum_to_code` keys of
`find_java_emitters` (`java-audit.py` lines 448-451). -/
def codeToEnum (code : String) : String :=
  String.mk (code.data.map fun c => if c = '-' then '_' else c)

/-- Embeds `find_java_emitters` (`java-audit.py` lines 440-479):
iterate the Java files in listing order, skip `MessageId.java` and
`DefaultSeverities.java`, scan each file's text for `MessageId.<enum>`
tokens in text order, and for every token that is the enum name of a
known code append the file's stem to that message's `java_files` list
if not already present. -/
def find_java_emitters (files : List JavaFile) (msgs : List MessageInfo) :
    List MessageInfo :=
  files.foldl (fun acc jf =>
    if jf.name = "MessageId.java" ∨ jf.name = "DefaultSeverities.java" then acc
    else (scanMessageIds jf.content).foldl (fun acc2 tok =>
      acc2.map fun m =>
        if codeToEnum m.code = tok ∧ jf.stem ∉ m.java_files then
          { m with java_files := m.java_files ++ [jf.stem] }
        else m) acc) msgs

/-- Embeds the marking loop of `find_go_implementations`
(`java-audit.py` lines 499-504); `goCodes` is the set of quoted
check-ID tokens collected from the Go sources, modelled as a list. -/
def find_go_implementations (goCodes : List String) (msgs : List MessageInfo) :
    List MessageInfo :=
  msgs.map fun m => if m.code ∈ goCodes then { m with in_go_code := true } else m

/-- Embeds the marking loop of `find_bdd_coverage` (`java-audit.py`
lines 527-531). -/
def find_bdd_coverage (bddCodes : List String) (msgs : List MessageInfo) :
    List MessageInfo :=
  msgs.map fun m => if m.code ∈ bddCodes then { m with in_bdd_tests := true } else m

/-- The java-audit pipeline from the parsed message records to the
machine-readable report (steps 5-9 of `main`, `java-audit.py`
lines 734-755, under `--json`): Java-emitter scan, Go scan, BDD scan,
overrides, report generation, JSON emission.  Every input — the parsed
records, the ordered Java file listing, the scanned Go/BDD code sets,
the override table and the reference commit — is an explicit argument;
the script holds no other state across these stages. -/
def runJavaAuditJson (msgs0 : List MessageInfo) (javaFiles : List JavaFile)
    (goCodes bddCodes : List String) (overrides : List (String × OverrideEntry))
    (commit : String) : JsonReport :=
  print_json_report
    (generate_report
      (apply_overrides overrides
        (find_bdd_coverage bddCodes
          (find_go_implementations goCodes
            (find_java_emitters javaFiles msgs0)))) commit)

/-! ## java-audit.py — ID normalization -/

/-- `code.replace("_", "-")` as used in `parse_message_ids`
(`java-audit.py` line 379), on the ID's character list. -/
def normalizeId (cs : List Char) : List Char :=
  cs.map fun c => if c = '_' then '-' else c

/-- `code.split("-")[0]` as used for `category` in `parse_message_ids`
(`java-audit.py` line 380): the characters before the first hyphen. -/
def idCategory (cs : List Char) : List Char :=
  cs.takeWhile (fun c => c ≠ '-')

/-- The substitution `re.sub(r'^([A-Z]+)_(\d+)(.*)', r'\1-\2\3',
enum_name)` of `parse_severities` (`java-audit.py` line 406): when the
string starts with one or more uppercase letters followed by `_` and at
least one digit, that first underscore becomes a hyphen; otherwise the
string is returned unchanged. -/
def severityEnumToCode (cs : List Char) : List Char :=
  let up := cs.takeWhile Char.isUpper
  let rest := cs.drop up.length
  if up ≠ [] ∧ rest.head? = some '_' ∧ rest.tail.takeWhile Char.isDigit ≠ [] then
    up ++ '-' :: rest.tail
  else cs

/-- The canonical ID shape `PREFIX-NNN[suffix]` / `PREFIX_NNN[suffix]`
split into its parts: a nonempty uppercase prefix, a separator, a
nonempty digit block and an optional lowercase suffix. -/
abbrev CanonicalIdParts (pre num suf : List Char) : Prop :=
  pre ≠ [] ∧ (∀ c ∈ pre, c.isUpper) ∧ num ≠ [] ∧ (∀ c ∈ num, c.isDigit)
  ∧ (∀ c ∈ suf, c.isLower)

/-! ## relaxng-audit.py — grammar extractor and gap analysis -/

/-- Embeds the `ElementDef` dataclass of `relaxng-audit.py`
lines 120-129. -/
structure ElementDef where
  name : String
  source_file : String
  content_model : String
  content_category : String
  attrs : List String := []
  content_detail : String := ""
  is_void : Bool := false
  deriving Repr, DecidableEq

/-- One element-definition match of the `elem_pat` loop of
`parse_rnc_files` (`relaxng-audit.py` lines 468-488): the constructed
`ElementDef` is inserted only when the tag name is not already a key
(`if elem_name not in elements:`), so the first definition wins.  The
`elements` dict is modelled as an association list in insertion
order. -/
def addElementDef (elements : List (String × ElementDef)) (ed : ElementDef) :
    List (String × ElementDef) :=
  if (elements.lookup ed.name).isSome then elements
  else elements ++ [(ed.name, ed)]

/-- The element-discovery pass of `parse_rnc_files` over the
element-definition matches of all grammar files, flattened in file
order (files are visited in the configured `file_list` order and
matches in text order within each file). -/
def parseRncElements (defs : List ElementDef) : List (String × ElementDef) :=
  defs.foldl addElementDef []

/-- Embeds the `GapItem` dataclass of `relaxng-audit.py`
lines 142-152. -/
structure GapItem where
  category : String
  description : String
  priority : String
  schema_source : String
  affected_elements : List String := []
  epubverify_status : String := "missing"
  go_file : String := ""
  note : String := ""
  deriving Repr, DecidableEq

/-- A known-checks registry entry: the `status` plus the optional `go`
and `note` keys of a `KNOWN_CHECKS` value (both audit scripts use this
shape). -/
structure KnownCheck where
  status : String
  go : String := ""
  note : String := ""
  deriving Repr, DecidableEq

/-- The hand-maintained `PHRASING_CONTENT_PARENTS` set
(`relaxng-audit.py` lines 581-590) as the list of its members in source
order; the `sorted(...)` iteration of the gap loop is modelled by
sorting this list. -/
def PHRASING_CONTENT_PARENTS : List String :=
  ["p", "h1", "h2", "h3", "h4", "h5", "h6",
   "pre", "span", "em", "strong", "small", "mark", "abbr", "dfn",
   "i", "b", "s", "u", "code", "var", "samp", "kbd", "sup", "sub",
   "q", "cite", "bdo", "bdi", "dt", "label", "legend",
   "summary", "figcaption",
   "a", "time", "data", "output"]

/-- `general_implemented` of `analyze_gaps` (`relaxng-audit.py`
lines 650-651), parameterised by the known-checks registry. -/
def generalBlockInPhrasingImplemented (kc : List (String × KnownCheck)) : Bool :=
  match kc.lookup "block-in-phrasing" with
  | some k => k.status = "implemented"
  | none => false

/-- The skip condition of the phrasing-only loop (`relaxng-audit.py`
line 658): an element-specific `<elem>-phrasing-only` check recorded as
implemented, or the general block-in-phrasing check implemented. -/
def phrasingGapSkipped (kc : List (String × KnownCheck)) (elem : String) : Bool :=
  (match kc.lookup (elem ++ "-phrasing-only") with
   | some k => k.status = "implemented"
   | none => false)
  || generalBlockInPhrasingImplemented kc

/-- The Gap Item constructed at `relaxng-audit.py` lines 662-672 for a
phrasing-only element with no implemented check. -/
def mkPhrasingGap (kc : List (String × KnownCheck)) (elem : String) : GapItem :=
  { category := "content-model",
    description := "<" ++ elem
      ++ "> allows only phrasing content (text and inline elements). "
      ++ "Block elements like <div>, <p>, <table>, <ul> must not appear inside <"
      ++ elem ++ ">.",
    priority := if elem ∈ ["p", "h1", "h2", "h3", "h4", "h5", "h6", "span"]
                then "high" else "medium",
    schema_source := if elem ∈ ["p", "pre"] then "mod/html5/block.rnc"
                     else "mod/html5/phrase.rnc",
    affected_elements := [elem],
    epubverify_status := match kc.lookup (elem ++ "-phrasing-only") with
                         | some k => k.status
                         | none => "missing",
    go_file := match kc.lookup (elem ++ "-phrasing-only") with
               | some k => k.go
               | none => "" }

/-- The phrasing-only pass of `analyze_gaps` (`relaxng-audit.py`
lines 649-672), parameterised by the known-checks registry (§9 of the
design: the registry is plain data passed into the gap analysis). -/
def analyzePhrasingGaps (kc : List (String × KnownCheck)) : List GapItem :=
  (PHRASING_CONTENT_PARENTS.mergeSort (fun a b => a ≤ b)).filterMap fun elem =>
    if phrasingGapSkipped kc elem then none else some (mkPhrasingGap kc elem)

/-! ## schematron-audit.py — audit -/

/-- Embeds the `SchematronCheck` dataclass of `schematron-audit.py`
lines 247-257 (the `params` dict as an association list). -/
structure SchematronCheck where
  file : String := ""
  pattern_id : String
  context : String := ""
  check_type : String := ""
  test_xpath : String := ""
  message : String := ""
  is_abstract_instance : Bool := false
  abstract_pattern : String := ""
  params : List (String × String) := []
  deriving Repr, DecidableEq

/-- Embeds the `AuditResult` dataclass of `schematron-audit.py`
lines 260-268 (named apart from the java-audit one; the source fields
`partial` and `partial_checks` are renamed `partCount` and
`part_checks` because `partial` is reserved in Lean). -/
structure SchAuditResult where
  total_patterns : Nat := 0
  total_checks : Nat := 0
  implemented : Nat := 0
  partCount : Nat := 0
  missing : Nat := 0
  missing_checks : List SchematronCheck := []
  part_checks : List SchematronCheck := []
  deriving Repr, DecidableEq

/-- The classification a parsed check receives from the known-checks
registry in `audit` (`schematron-audit.py` lines 405-413): absent
pattern IDs are missing, registered status `partial` is partial, and
every other registered status is counted as implemented. -/
def schClassify (kc : List (String × KnownCheck)) (pid : String) : String :=
  match kc.lookup pid with
  | none => "missing"
  | some k => if k.status = "partial" then "partial" else "implemented"

/-- The loop body of `audit` (`schematron-audit.py` lines 397-413) with
the `seen_patterns` set carried explicitly. -/
def schAuditStep (kc : List (String × KnownCheck))
    (state : List String × SchAuditResult) (c : SchematronCheck) :
    List String × SchAuditResult :=
  let seen := state.1
  let r := state.2
  let seen1 := if c.pattern_id ∈ seen then seen else c.pattern_id :: seen
  let r1 := if c.pattern_id ∈ seen then r
            else { r with total_patterns := r.total_patterns + 1 }
  let r2 := { r1 with total_checks := r1.total_checks + 1 }
  let r3 :=
    match kc.lookup c.pattern_id with
    | none => { r2 with missing := r2.missing + 1,
                        missing_checks := r2.missing_checks ++ [c] }
    | some k =>
        if k.status = "partial" then
          { r2 with partCount := r2.partCount + 1,
                    part_checks := r2.part_checks ++ [c] }
        else { r2 with implemented := r2.implemented + 1 }
  (seen1, r3)

/-- Embeds `audit` (`schematron-audit.py` lines 390-415), parameterised
by the known-checks registry. -/
def schAudit (kc : List (String × KnownCheck)) (checks : List SchematronCheck) :
    SchAuditResult :=
  (checks.foldl (schAuditStep kc) ([], {})).2

/-! ## Process exit codes of the three audits -/

/-- Models the end of `main` in `java-audit.py` (lines 759-765): when
`result.missing > 0` a message is printed to stderr, but — unlike in
the other two audit scripts — no `sys.exit` call follows, so this
`main` always finishes with process exit status 0. -/
def javaAuditExitCode (result : AuditResult) : Nat := 0

/-- Models the end of `main` in `schematron-audit.py`
(lines 1126-1128): `sys.exit(2)` when `result.missing > 0`, else fall
through to exit status 0. -/
def schematronAuditExitCode (result : SchAuditResult) : Nat :=
  if result.missing > 0 then 2 else 0

/-- Models the end of `main` in `relaxng-audit.py` (lines 1249-1252):
`sys.exit(2)` when the gap list has a high-priority item, else fall
through to exit status 0. -/
def relaxngAuditExitCode (gaps : List GapItem) : Nat :=
  if (gaps.filter fun g => g.priority = "high").length > 0 then 2 else 0

end EpubVerify

namespace EpubVerify

/-- C1: For every check ID, the reconciled status follows the exact
precedence of `MessageInfo.status`: an override entry (a non-empty
`override_status`, as set by `apply_overrides` from a `KNOWN_OVERRIDES`
entry) is final; otherwise severity `SUPPRESSED` gives `suppressed`;
otherwise `found_in_validator_source` gives `implemented`; otherwise
`missing`.  In particular an ID with no override, severity `SUPPRESSED`
and `in_go_code = true` resolves to `suppressed`. -/
theorem reconciler_status_precedence (m : MessageInfo) :
    (m.override_status ≠ "" → m.status = m.override_status) ∧
    (m.override_status = "" → m.severity = "SUPPRESSED" → m.status = "suppressed") ∧
    (m.override_status = "" → m.severity ≠ "SUPPRESSED" → m.in_go_code = true →
      m.status = "implemented") ∧
    (m.override_status = "" → m.severity ≠ "SUPPRESSED" → m.in_go_code = false →
      m.status = "missing") ∧
    (m.override_status = "" → m.severity = "SUPPRESSED" → m.in_go_code = true →
      m.status = "suppressed") := by
  refine ⟨fun h => ?_, fun h hs => ?_, fun h hs hg => ?_, fun h hs hg => ?_, fun h hs _ => ?_⟩
  · simp [MessageInfo.status, h]
  · simp [MessageInfo.status, h, hs]
  · simp [MessageInfo.status, h, hs, hg]
  · simp [MessageInfo.status, h, hs, hg]
  · simp [MessageInfo.status, h, hs]

/-- Witness for C1 at concrete inputs: an overridden message takes the
override status, and a suppressed-severity message that is also found in
Go source resolves to `suppressed`. -/
theorem reconciler_status_precedence_witness :
    ({ code := "ACC-011", override_status := "wontfix" : MessageInfo }.status = "wontfix") ∧
    ({ code := "SCP-001", severity := "SUPPRESSED", in_go_code := true :
        MessageInfo }.status = "suppressed") := by
  constructor
  · exact (reconciler_status_precedence
      { code := "ACC-011", override_status := "wontfix" }).1 (by decide)
  · exact (reconciler_status_precedence
      { code := "SCP-001", severity := "SUPPRESSED", in_go_code := true }).2.2.2.2
      (by decide) (by decide) (by decide)

/-! ### C2 — the five buckets and the total -/

lemma reportStep_implemented (r : AuditResult) (m : MessageInfo) :
    (reportStep r m).implemented
      = r.implemented + (if m.status = "implemented" then 1 else 0) := by
  simp only [reportStep]
  by_cases hb : m.in_bdd_tests <;> by_cases h : m.status = "implemented" <;>
    simp [hb, h, apply_ite AuditResult.implemented]

lemma reportStep_suppressed (r : AuditResult) (m : MessageInfo) :
    (reportStep r m).suppressed
      = r.suppressed + (if m.status = "suppressed" then 1 else 0) := by
  simp only [reportStep]
  by_cases hb : m.in_bdd_tests <;> by_cases h : m.status = "suppressed" <;>
    by_cases h2 : m.status = "implemented" <;>
    simp [hb, h, h2, apply_ite AuditResult.suppressed]

lemma reportStep_wontfix (r : AuditResult) (m : MessageInfo) :
    (reportStep r m).wontfix
      = r.wontfix + (if m.status = "wontfix" then 1 else 0) := by
  simp only [reportStep]
  by_cases hb : m.in_bdd_tests <;> by_cases h : m.status = "wontfix" <;>
    by_cases h2 : m.status = "implemented" <;> by_cases h3 : m.status = "suppressed" <;>
    simp [hb, h, h2, h3, apply_ite AuditResult.wontfix]

lemma reportStep_part (r : AuditResult) (m : MessageInfo) :
    (reportStep r m).partCount
      = r.partCount + (if m.status = "partial" then 1 else 0) := by
  simp only [reportStep]
  by_cases hb : m.in_bdd_tests <;> by_cases h : m.status = "partial" <;>
    by_cases h2 : m.status = "implemented" <;> by_cases h3 : m.status = "suppressed" <;>
    by_cases h4 : m.status = "wontfix" <;>
    simp [hb, h, h2, h3, h4, apply_ite AuditResult.partCount]

lemma reportStep_missing (r : AuditResult) (m : MessageInfo) :
    (reportStep r m).missing
      = r.missing + (if m.status = "missing" then 1 else 0) := by
  simp only [reportStep]
  by_cases hb : m.in_bdd_tests <;> by_cases h : m.status = "missing" <;>
    by_cases h2 : m.status = "implemented" <;> by_cases h3 : m.status = "suppressed" <;>
    by_cases h4 : m.status = "wontfix" <;> by_cases h5 : m.status = "partial" <;>
    simp [hb, h, h2, h3, h4, h5, apply_ite AuditResult.missing]

lemma reportStep_total (r : AuditResult) (m : MessageInfo) :
    (reportStep r m).total_codes = r.total_codes := by
  simp only [reportStep]
  by_cases hb : m.in_bdd_tests <;>
    by_cases h2 : m.status = "implemented" <;> by_cases h3 : m.status = "suppressed" <;>
    by_cases h4 : m.status = "wontfix" <;> by_cases h5 : m.status = "partial" <;>
    by_cases h6 : m.status = "missing" <;>
    simp [hb, h2, h3, h4, h5, h6, apply_ite AuditResult.total_codes]

lemma foldl_reportStep_implemented (msgs : List MessageInfo) (r : AuditResult) :
    (msgs.foldl reportStep r).implemented
      = r.implemented + msgs.countP (fun m => m.status = "implemented") := by
  induction msgs generalizing r with
  | nil => simp
  | cons m t ih =>
      simp only [List.foldl_cons, ih, List.countP_cons, reportStep_implemented]
      by_cases h : m.status = "implemented" <;> simp [h] <;> omega

lemma foldl_reportStep_suppressed (msgs : List MessageInfo) (r : AuditResult) :
    (msgs.foldl reportStep r).suppressed
      = r.suppressed + msgs.countP (fun m => m.status = "suppressed") := by
  induction msgs generalizing r with
  | nil => simp
  | cons m t ih =>
      simp only [List.foldl_cons, ih, List.countP_cons, reportStep_suppressed]
      by_cases h : m.status = "suppressed" <;> simp [h] <;> omega

lemma foldl_reportStep_wontfix (msgs : List MessageInfo) (r : AuditResult) :
    (msgs.foldl reportStep r).wontfix
      = r.wontfix + msgs.countP (fun m => m.status = "wontfix") := by
  induction msgs generalizing r with
  | nil => simp
  | cons m t ih =>
      simp only [List.foldl_cons, ih, List.countP_cons, reportStep_wontfix]
      by_cases h : m.status = "wontfix" <;> simp [h] <;> omega

lemma foldl_reportStep_part (msgs : List MessageInfo) (r : AuditResult) :
    (msgs.foldl reportStep r).partCount
      = r.partCount + msgs.countP (fun m => m.status = "partial") := by
  induction msgs generalizing r with
  | nil => simp
  | cons m t ih =>
      simp only [List.foldl_cons, ih, List.countP_cons, reportStep_part]
      by_cases h : m.status = "partial" <;> simp [h] <;> omega

lemma foldl_reportStep_missing (msgs : List MessageInfo) (r : AuditResult) :
    (msgs.foldl reportStep r).missing
      = r.missing + msgs.countP (fun m => m.status = "missing") := by
  induction msgs generalizing r with
  | nil => simp
  | cons m t ih =>
      simp only [List.foldl_cons, ih, List.countP_cons, reportStep_missing]
      by_cases h : m.status = "missing" <;> simp [h] <;> omega

lemma foldl_reportStep_total (msgs : List MessageInfo) (r : AuditResult) :
    (msgs.foldl reportStep r).total_codes = r.total_codes := by
  induction msgs generalizing r with
  | nil => simp
  | cons m t ih => simp only [List.foldl_cons, ih, reportStep_total]

/-- The five bucket counters of `generate_report` are the per-status
occurrence counts of the (unsorted) message list. -/
lemma generate_report_counts (msgs : List MessageInfo) (commit : String) :
    (generate_report msgs commit).implemented
        = msgs.countP (fun m => m.status = "implemented")
    ∧ (generate_report msgs commit).suppressed
        = msgs.countP (fun m => m.status = "suppressed")
    ∧ (generate_report msgs commit).wontfix
        = msgs.countP (fun m => m.status = "wontfix")
    ∧ (generate_report msgs commit).partCount
        = msgs.countP (fun m => m.status = "partial")
    ∧ (generate_report msgs commit).missing
        = msgs.countP (fun m => m.status = "missing")
    ∧ (generate_report msgs commit).total_codes = msgs.length := by
  have hperm : ∀ p : MessageInfo → Bool,
      (msgs.mergeSort (fun a b => a.code ≤ b.code)).countP p = msgs.countP p :=
    fun p => (List.mergeSort_perm msgs _).countP_eq p
  refine ⟨?_, ?_, ?_, ?_, ?_, ?_⟩ <;>
    simp only [generate_report, foldl_reportStep_implemented, foldl_reportStep_suppressed,
      foldl_reportStep_wontfix, foldl_reportStep_part, foldl_reportStep_missing,
      foldl_reportStep_total, hperm, Nat.zero_add]

lemma status_mem_buckets (m : MessageInfo)
    (h : m.override_status ∈ ["", "implemented", "partial", "wontfix"]) :
    m.status ∈ ["implemented", "suppressed", "wontfix", "partial", "missing"] := by
  simp only [List.mem_cons, List.not_mem_nil, or_false] at h ⊢
  rcases h with h | h | h | h
  · rw [MessageInfo.status]
    by_cases hs : m.severity = "SUPPRESSED" <;> by_cases hg : m.in_go_code <;>
      simp [h, hs, hg]
  all_goals rw [MessageInfo.status]; simp [h]

lemma sum_countP_statuses (msgs : List MessageInfo)
    (h : ∀ m ∈ msgs,
      m.status ∈ ["implemented", "suppressed", "wontfix", "partial", "missing"]) :
    msgs.countP (fun m => m.status = "implemented")
    + msgs.countP (fun m => m.status = "suppressed")
    + msgs.countP (fun m => m.status = "wontfix")
    + msgs.countP (fun m => m.status = "partial")
    + msgs.countP (fun m => m.status = "missing") = msgs.length := by
  induction msgs with
  | nil => simp
  | cons m t ih =>
      have hm := h m (List.mem_cons_self m t)
      have ht := ih fun x hx => h x (List.mem_cons_of_mem _ hx)
      simp only [List.mem_cons, List.not_mem_nil, or_false] at hm
      simp only [List.countP_cons, List.length_cons]
      rcases hm with h1 | h1 | h1 | h1 | h1 <;> simp [h1] <;> omega

/-- C2 (amended): for every message set whose override statuses are
drawn from `implemented`/`partial`/`wontfix` (or are absent), the five
status buckets of the generated report partition the ID set: the counts
`implemented + suppressed + wontfix + partial + missing` equal
`total_codes`.  (The documented override status `note` must be
excluded: it yields Reconciled Status `note`, which falls outside all
five buckets — see the counterexample.) -/
theorem report_counts_partition (msgs : List MessageInfo) (commit : String)
    (hov : ∀ m ∈ msgs, m.override_status ∈ ["", "implemented", "partial", "wontfix"]) :
    (generate_report msgs commit).implemented
    + (generate_report msgs commit).suppressed
    + (generate_report msgs commit).wontfix
    + (generate_report msgs commit).partCount
    + (generate_report msgs commit).missing
    = (generate_report msgs commit).total_codes := by
  obtain ⟨h1, h2, h3, h4, h5, h6⟩ := generate_report_counts msgs commit
  rw [h1, h2, h3, h4, h5, h6]
  exact sum_countP_statuses msgs fun m hm => status_mem_buckets m (hov m hm)

/-- C2 counterexample: with a single message whose override status is
`note` — one of the override statuses the claim allows — the five
bucket counts sum to 0 while `total_codes` is 1, so the buckets do not
partition the ID set. -/
theorem report_counts_note_counterexample :
    ¬ ((generate_report [noteOverrideMsg] "").implemented
       + (generate_report [noteOverrideMsg] "").suppressed
       + (generate_report [noteOverrideMsg] "").wontfix
       + (generate_report [noteOverrideMsg] "").partCount
       + (generate_report [noteOverrideMsg] "").missing
       = (generate_report [noteOverrideMsg] "").total_codes) := by
  obtain ⟨h1, h2, h3, h4, h5, h6⟩ := generate_report_counts [noteOverrideMsg] ""
  rw [h1, h2, h3, h4, h5, h6]
  decide

/-- Witness for C2 at a concrete four-message input covering all four
allowed override shapes. -/
theorem report_counts_partition_witness :
    (generate_report
      [{ code := "OPF-001" }, { code := "ACC-011", override_status := "wontfix" },
       { code := "SCP-001", severity := "SUPPRESSED" },
       { code := "RSC-005", in_go_code := true, override_status := "partial" }]
      "c").implemented
    + (generate_report
      [{ code := "OPF-001" }, { code := "ACC-011", override_status := "wontfix" },
       { code := "SCP-001", severity := "SUPPRESSED" },
       { code := "RSC-005", in_go_code := true, override_status := "partial" }]
      "c").suppressed
    + (generate_report
      [{ code := "OPF-001" }, { code := "ACC-011", override_status := "wontfix" },
       { code := "SCP-001", severity := "SUPPRESSED" },
       { code := "RSC-005", in_go_code := true, override_status := "partial" }]
      "c").wontfix
    + (generate_report
      [{ code := "OPF-001" }, { code := "ACC-011", override_status := "wontfix" },
       { code := "SCP-001", severity := "SUPPRESSED" },
       { code := "RSC-005", in_go_code := true, override_status := "partial" }]
      "c").partCount
    + (generate_report
      [{ code := "OPF-001" }, { code := "ACC-011", override_status := "wontfix" },
       { code := "SCP-001", severity := "SUPPRESSED" },
       { code := "RSC-005", in_go_code := true, override_status := "partial" }]
      "c").missing
    = (generate_report
      [{ code := "OPF-001" }, { code := "ACC-011", override_status := "wontfix" },
       { code := "SCP-001", severity := "SUPPRESSED" },
       { code := "RSC-005", in_go_code := true, override_status := "partial" }]
      "c").total_codes :=
  report_counts_partition _ "c" (by decide)

/-! ### C3 — exit status on unresolved gaps -/

/-- C3 (code-bug evidence): at a failing input — a dataset whose report
counts one missing check — the enumerated-identity (Java) audit's
`main` finishes with process exit status 0, although its own comment
("Exit with non-zero if there are missing checks", line 759) announces
a non-zero exit; the other two audits do exit non-zero on their
unresolved-gap conditions (missing checks, high-priority Gap Items). -/
theorem java_audit_exit_zero_on_missing :
    (generate_report [{ code := "OPF-100" }] "c").missing = 1
    ∧ javaAuditExitCode (generate_report [{ code := "OPF-100" }] "c") = 0
    ∧ schematronAuditExitCode { missing := 1 } = 2
    ∧ relaxngAuditExitCode
        [{ category := "content-model", description := "d",
           priority := "high", schema_source := "s" }] = 2 := by
  refine ⟨?_, rfl, by decide, by decide⟩
  obtain ⟨-, -, -, -, h5, -⟩ := generate_report_counts [{ code := "OPF-100" }] "c"
  rw [h5]; decide

/-! ### C4 — determinism of the machine-readable output -/

/-- C4: two runs with equal inputs — the same parsed message records,
the same ordered Java-file listing, the same scanned Go/BDD code sets,
the same override table and commit — produce the identical
machine-readable report, including the order of every list in it (in
particular the per-ID `java_files` origin lists accumulated by
`find_java_emitters` in listing/text order).  The pipeline is a pure
function of these inputs (no state survives a run), so an unchanged
snapshot yields byte-identical serialised output. -/
theorem json_report_deterministic
    (m1 m2 : List MessageInfo) (f1 f2 : List JavaFile)
    (g1 g2 b1 b2 : List String) (o1 o2 : List (String × OverrideEntry))
    (c1 c2 : String) (hm : m1 = m2) (hf : f1 = f2) (hg : g1 = g2)
    (hb : b1 = b2) (ho : o1 = o2) (hc : c1 = c2) :
    runJavaAuditJson m1 f1 g1 b1 o1 c1 = runJavaAuditJson m2 f2 g2 b2 o2 c2 := by
  subst hm hf hg hb ho hc
  rfl

/-- Witness for C4 at a concrete run: one message record, one Java file
whose text mentions `MessageId.ACC_001`, a Go-scan hit and an
override. -/
theorem json_report_deterministic_witness :
    runJavaAuditJson [{ code := "ACC-001" }]
        [{ name := "OPFChecker.java", stem := "OPFChecker",
           content := "report(MessageId.ACC_001);".toList }]
        ["ACC-001"] [] [("ACC-001", { status := "implemented" })] "c"
      = runJavaAuditJson [{ code := "ACC-001" }]
        [{ name := "OPFChecker.java", stem := "OPFChecker",
           content := "report(MessageId.ACC_001);".toList }]
        ["ACC-001"] [] [("ACC-001", { status := "implemented" })] "c" :=
  json_report_deterministic _ _ _ _ _ _ _ _ _ _ _ _ rfl rfl rfl rfl rfl rfl

/-! ### C5 — ID normalization -/

lemma takeWhile_append_of_all {p : Char → Bool} (l1 l2 : List Char)
    (h : ∀ c ∈ l1, p c) : (l1 ++ l2).takeWhile p = l1 ++ l2.takeWhile p := by
  induction l1 with
  | nil => simp
  | cons a t ih =>
      simp [List.takeWhile_cons, h a (List.mem_cons_self a t),
        ih fun c hc => h c (List.mem_cons_of_mem a hc)]

lemma map_eq_self_of_ne {l : List Char} {f : Char → Char}
    (h : ∀ c ∈ l, f c = c) : l.map f = l := by
  induction l with
  | nil => rfl
  | cons a t ih =>
      rw [List.map_cons, h a (List.mem_cons_self a t),
        ih fun c hc => h c (List.mem_cons_of_mem a hc)]

/-- C5: on canonically-shaped IDs the two accepted separator
conventions normalize to one hyphenated map key: the underscore form
(symbolic enum names) and the hyphen form (string literals) both yield
`pre ++ "-" ++ num ++ suf`, under both normalizers the extractor uses —
the `replace("_", "-")` of `parse_message_ids` and the regex
substitution of `parse_severities` — and the derived category is the
alphabetic prefix before the first separator. -/
theorem id_normalization_canonical (pre num suf : List Char)
    (h : CanonicalIdParts pre num suf) :
    normalizeId (pre ++ '_' :: (num ++ suf)) = pre ++ '-' :: (num ++ suf)
    ∧ normalizeId (pre ++ '-' :: (num ++ suf)) = pre ++ '-' :: (num ++ suf)
    ∧ severityEnumToCode (pre ++ '_' :: (num ++ suf)) = pre ++ '-' :: (num ++ suf)
    ∧ idCategory (pre ++ '-' :: (num ++ suf)) = pre := by
  obtain ⟨hpre, hup, hnum, hdig, hlow⟩ := h
  have hne : ∀ (s : List Char) (q : Char → Bool), (∀ c ∈ s, q c) →
      ∀ bad : Char, q bad = false → ∀ c ∈ s, c ≠ bad := fun s q hall bad hbad c hc heq =>
    absurd (heq ▸ hall c hc) (by simp [hbad])
  have pre_ne_u : ∀ c ∈ pre, c ≠ '_' := hne pre Char.isUpper hup '_' (by decide)
  have pre_ne_h : ∀ c ∈ pre, c ≠ '-' := hne pre Char.isUpper hup '-' (by decide)
  have num_ne_u : ∀ c ∈ num, c ≠ '_' := hne num Char.isDigit hdig '_' (by decide)
  have suf_ne_u : ∀ c ∈ suf, c ≠ '_' := hne suf Char.isLower hlow '_' (by decide)
  have fpre : ∀ c ∈ pre, (if c = '_' then '-' else c) = c :=
    fun c hc => if_neg (pre_ne_u c hc)
  have fid : ∀ c ∈ num ++ suf, (if c = '_' then '-' else c) = c := by
    intro c hc
    rcases List.mem_append.mp hc with hm | hm
    · exact if_neg (num_ne_u c hm)
    · exact if_neg (suf_ne_u c hm)
  refine ⟨?_, ?_, ?_, ?_⟩
  · simp [normalizeId, List.map_append, map_eq_self_of_ne fpre, map_eq_self_of_ne fid]
  · simp [normalizeId, List.map_append, map_eq_self_of_ne fpre, map_eq_self_of_ne fid]
  · have h1 : (pre ++ '_' :: (num ++ suf)).takeWhile Char.isUpper = pre := by
      rw [takeWhile_append_of_all pre _ hup, List.takeWhile_cons]
      simp
    have h2 : (pre ++ '_' :: (num ++ suf)).drop pre.length = '_' :: (num ++ suf) :=
      List.drop_left pre ('_' :: (num ++ suf))
    have h3 : (num ++ suf).takeWhile Char.isDigit ≠ [] := by
      rw [takeWhile_append_of_all num suf hdig]
      simp [hnum]
    rw [severityEnumToCode]
    simp only [h1, h2]
    rw [if_pos ⟨hpre, rfl, h3⟩]
    simp
  · rw [idCategory, takeWhile_append_of_all pre _
      (fun c hc => decide_eq_true (pre_ne_h c hc)), List.takeWhile_cons]
    simp

/-- Witness for C5 at the concrete ID `ACC-001` / `ACC_001`. -/
theorem id_normalization_canonical_witness :
    CanonicalIdParts "ACC".toList "001".toList []
    ∧ normalizeId ("ACC".toList ++ '_' :: ("001".toList ++ []))
        = "ACC".toList ++ '-' :: ("001".toList ++ [])
    ∧ idCategory ("ACC".toList ++ '-' :: ("001".toList ++ [])) = "ACC".toList := by
  refine ⟨by decide, ?_, ?_⟩
  · exact (id_normalization_canonical "ACC".toList "001".toList [] (by decide)).1
  · exact (id_normalization_canonical "ACC".toList "001".toList [] (by decide)).2.2.2

/-! ### C6 — the two emitters agree on all counts -/

/-- C6: the aggregate counts printed by the human-readable emitter and
the `summary` object of the machine-readable emitter always agree —
both read the same fields of the one reconciled `AuditResult`, in the
same order (total, implemented, tested, suppressed, wontfix, partial,
missing), so the two renderings can never disagree on a count. -/
theorem emitters_counts_agree (r : AuditResult) :
    (textReportCountLines r).map Prod.snd = (jsonSummary r).map Prod.snd := rfl

/-! ### C7 — first grammar definition wins -/

lemma lookup_append {α β : Type} [BEq α] (l1 l2 : List (α × β)) (a : α) :
    (l1 ++ l2).lookup a = ((l1.lookup a).or (l2.lookup a)) := by
  induction l1 with
  | nil => simp [List.lookup]
  | cons p t ih =>
      obtain ⟨k, v⟩ := p
      simp only [List.cons_append, List.lookup]
      cases h : a == k <;> simp [h, ih]

lemma foldl_addElementDef_lookup (defs : List ElementDef)
    (acc : List (String × ElementDef)) (name : String) :
    (defs.foldl addElementDef acc).lookup name
      = ((acc.lookup name).or (defs.find? fun d => d.name == name)) := by
  induction defs generalizing acc with
  | nil => simp
  | cons d t ih =>
      simp only [List.foldl_cons, ih, List.find?_cons, addElementDef]
      by_cases hd : (acc.lookup d.name).isSome
      · rw [if_pos hd]
        by_cases hn : d.name = name
        · subst hn
          obtain ⟨v, hv⟩ := Option.isSome_iff_exists.mp hd
          simp [hv]
        · have : (d.name == name) = false := by simp [hn]
          simp [this]
      · rw [if_neg hd, lookup_append]
        by_cases hn : d.name = name
        · subst hn
          have hnone : acc.lookup d.name = none :=
            Option.not_isSome_iff_eq_none.mp hd
          simp [hnone, List.lookup]
        · have h1 : (d.name == name) = false := by simp [hn]
          have h2 : (name == d.name) = false := by
            simp only [beq_eq_false_iff_ne, ne_eq]
            exact fun hh => hn hh.symm
          simp [h1, h2, List.lookup, Option.or_assoc]

/-- C7: in the structural-grammar extractor, the element record
retained for a tag name is the one built from the first definition
encountered in configured file order — later definitions of the same
tag never overwrite an existing record (insert-if-absent). -/
theorem rnc_first_definition_wins (defs : List ElementDef) (name : String) :
    (parseRncElements defs).lookup name = defs.find? (fun d => d.name == name) := by
  have h := foldl_addElementDef_lookup defs [] name
  simpa [parseRncElements] using h

/-! ### C8 — phrasing-only gap analysis -/

lemma countP_phrasingGaps (kc : List (String × KnownCheck)) (elem : String)
    (L : List String) :
    ((L.filterMap fun e =>
        if phrasingGapSkipped kc e then none else some (mkPhrasingGap kc e)).countP
      fun g => g.affected_elements = [elem])
      = if phrasingGapSkipped kc elem then 0 else L.count elem := by
  induction L with
  | nil => simp
  | cons e t ih =>
      rw [List.filterMap_cons]
      by_cases hs : phrasingGapSkipped kc e
      · rw [if_pos hs, ih]
        by_cases hse : phrasingGapSkipped kc elem
        · rw [if_pos hse, if_pos hse]
        · have he : e ≠ elem := fun h => hse (h ▸ hs)
          rw [if_neg hse, if_neg hse, List.count_cons]
          simp [he]
      · rw [if_neg hs, List.countP_cons, ih]
        by_cases he : e = elem
        · subst he
          rw [if_neg hs, if_neg hs, List.count_cons]
          simp [mkPhrasingGap]
        · have hp : ¬ (mkPhrasingGap kc e).affected_elements = [elem] := by
            simp [mkPhrasingGap, he]
          by_cases hse : phrasingGapSkipped kc elem <;>
            simp [hse, hp, List.count_cons, he]

/-- C8: for every element of the phrasing-only knowledge base, the gap
analysis emits exactly one Gap Item naming that element iff neither an
element-specific `<elem>-phrasing-only` check nor the general
block-in-phrasing check is recorded as implemented in the known-checks
registry (`phrasingGapSkipped`), and an emitted item carries priority
`high` exactly for the high-traffic tags p, h1-h6, span, else
`medium`. -/
theorem relaxng_phrasing_gap_analysis (kc : List (String × KnownCheck))
    (elem : String) (helem : elem ∈ PHRASING_CONTENT_PARENTS) :
    ((analyzePhrasingGaps kc).countP (fun g => g.affected_elements = [elem])
      = if phrasingGapSkipped kc elem then 0 else 1)
    ∧ ∀ g ∈ analyzePhrasingGaps kc, g.affected_elements = [elem] →
        g.priority = if elem ∈ ["p", "h1", "h2", "h3", "h4", "h5", "h6", "span"]
                     then "high" else "medium" := by
  constructor
  · rw [analyzePhrasingGaps, countP_phrasingGaps]
    have hcount : (PHRASING_CONTENT_PARENTS.mergeSort (fun a b => a ≤ b)).count elem
        = 1 := by
      rw [(List.mergeSort_perm PHRASING_CONTENT_PARENTS _).count_eq]
      exact List.count_eq_one_of_mem (by decide) helem
    rw [hcount]
  · intro g hg haff
    rw [analyzePhrasingGaps] at hg
    obtain ⟨e, he, hge⟩ := List.mem_filterMap.mp hg
    by_cases hs : phrasingGapSkipped kc e
    · simp [hs] at hge
    · rw [if_neg hs, Option.some.injEq] at hge
      subst hge
      have heq : e = elem := by simpa [mkPhrasingGap] using haff
      subst heq
      rfl

/-- Witness for C8: the scenario of the spec — registry with no
implemented check recorded for `span` (nor the general check) yields
exactly one high-priority Gap Item naming `span`. -/
theorem relaxng_phrasing_gap_witness :
    phrasingGapSkipped [] "span" = false
    ∧ ((analyzePhrasingGaps []).countP
          (fun g => g.affected_elements = ["span"])
        = if phrasingGapSkipped [] "span" then 0 else 1)
    ∧ ∀ g ∈ analyzePhrasingGaps [], g.affected_elements = ["span"] →
        g.priority = if "span" ∈ ["p", "h1", "h2", "h3", "h4", "h5", "h6", "span"]
                     then "high" else "medium" := by
  refine ⟨rfl, ?_, ?_⟩
  · exact (relaxng_phrasing_gap_analysis [] "span" (by decide)).1
  · exact (relaxng_phrasing_gap_analysis [] "span" (by decide)).2

/-! ### C9 — schematron audit classification -/

lemma schAuditStep_implemented (kc : List (String × KnownCheck))
    (st : List String × SchAuditResult) (c : SchematronCheck) :
    ((schAuditStep kc st c).2).implemented
      = st.2.implemented
        + (if schClassify kc c.pattern_id = "implemented" then 1 else 0) := by
  cases hl : kc.lookup c.pattern_id with
  | none =>
      by_cases hm : c.pattern_id ∈ st.1 <;> simp [schAuditStep, schClassify, hl, hm]
  | some k =>
      by_cases hp : k.status = "partial" <;> by_cases hm : c.pattern_id ∈ st.1 <;>
        simp [schAuditStep, schClassify, hl, hm, hp]

lemma schAuditStep_part (kc : List (String × KnownCheck))
    (st : List String × SchAuditResult) (c : SchematronCheck) :
    ((schAuditStep kc st c).2).partCount
      = st.2.partCount
        + (if schClassify kc c.pattern_id = "partial" then 1 else 0) := by
  cases hl : kc.lookup c.pattern_id with
  | none =>
      by_cases hm : c.pattern_id ∈ st.1 <;> simp [schAuditStep, schClassify, hl, hm]
  | some k =>
      by_cases hp : k.status = "partial" <;> by_cases hm : c.pattern_id ∈ st.1 <;>
        simp [schAuditStep, schClassify, hl, hm, hp]

lemma schAuditStep_missing (kc : List (String × KnownCheck))
    (st : List String × SchAuditResult) (c : SchematronCheck) :
    ((schAuditStep kc st c).2).missing
      = st.2.missing
        + (if schClassify kc c.pattern_id = "missing" then 1 else 0) := by
  cases hl : kc.lookup c.pattern_id with
  | none =>
      by_cases hm : c.pattern_id ∈ st.1 <;> simp [schAuditStep, schClassify, hl, hm]
  | some k =>
      by_cases hp : k.status = "partial" <;> by_cases hm : c.pattern_id ∈ st.1 <;>
        simp [schAuditStep, schClassify, hl, hm, hp]

lemma foldl_schAuditStep_implemented (kc : List (String × KnownCheck))
    (checks : List SchematronCheck) (st : List String × SchAuditResult) :
    ((checks.foldl (schAuditStep kc) st).2).implemented
      = st.2.implemented
        + checks.countP fun c => schClassify kc c.pattern_id = "implemented" := by
  induction checks generalizing st with
  | nil => simp
  | cons c t ih =>
      simp only [List.foldl_cons, ih, List.countP_cons, schAuditStep_implemented]
      by_cases h : schClassify kc c.pattern_id = "implemented" <;> simp [h] <;> omega

lemma foldl_schAuditStep_part (kc : List (String × KnownCheck))
    (checks : List SchematronCheck) (st : List String × SchAuditResult) :
    ((checks.foldl (schAuditStep kc) st).2).partCount
      = st.2.partCount
        + checks.countP fun c => schClassify kc c.pattern_id = "partial" := by
  induction checks generalizing st with
  | nil => simp
  | cons c t ih =>
      simp only [List.foldl_cons, ih, List.countP_cons, schAuditStep_part]
      by_cases h : schClassify kc c.pattern_id = "partial" <;> simp [h] <;> omega

lemma foldl_schAuditStep_missing (kc : List (String × KnownCheck))
    (checks : List SchematronCheck) (st : List String × SchAuditResult) :
    ((checks.foldl (schAuditStep kc) st).2).missing
      = st.2.missing
        + checks.countP fun c => schClassify kc c.pattern_id = "missing" := by
  induction checks generalizing st with
  | nil => simp
  | cons c t ih =>
      simp only [List.foldl_cons, ih, List.countP_cons, schAuditStep_missing]
      by_cases h : schClassify kc c.pattern_id = "missing" <;> simp [h] <;> omega

/-- C9: in the declarative-assertion audit a parsed check is counted
`partial` exactly when its pattern ID is registered with status
`partial`; every other registered status — `wontfix` included — is
counted in the `implemented` total; and only checks whose pattern ID is
absent from the registry are counted `missing`. -/
theorem schematron_audit_classification (kc : List (String × KnownCheck))
    (checks : List SchematronCheck) :
    ((schAudit kc checks).implemented
        = checks.countP fun c => schClassify kc c.pattern_id = "implemented")
    ∧ ((schAudit kc checks).partCount
        = checks.countP fun c => schClassify kc c.pattern_id = "partial")
    ∧ ((schAudit kc checks).missing
        = checks.countP fun c => schClassify kc c.pattern_id = "missing")
    ∧ (∀ pid k, kc.lookup pid = some k → k.status ≠ "partial" →
        schClassify kc pid = "implemented")
    ∧ (∀ pid k, kc.lookup pid = some k → k.status = "partial" →
        schClassify kc pid = "partial")
    ∧ (∀ pid, kc.lookup pid = none → schClassify kc pid = "missing") := by
  refine ⟨?_, ?_, ?_, ?_, ?_, ?_⟩
  · simpa [schAudit] using foldl_schAuditStep_implemented kc checks ([], {})
  · simpa [schAudit] using foldl_schAuditStep_part kc checks ([], {})
  · simpa [schAudit] using foldl_schAuditStep_missing kc checks ([], {})
  · intro pid k hl hs
    simp [schClassify, hl, hs]
  · intro pid k hl hs
    simp [schClassify, hl, hs]
  · intro pid hl
    simp [schClassify, hl]

/-- Witness for C9: a registry entry with status `wontfix` classifies
as `implemented`; an unregistered pattern ID classifies as `missing`;
the counts at a concrete three-check input follow suit. -/
theorem schematron_audit_classification_witness :
    schClassify [("ocf.uid", ({ status := "wontfix" } : KnownCheck))] "ocf.uid" = "implemented"
    ∧ schClassify [("ocf.uid", ({ status := "wontfix" } : KnownCheck))] "opf.itemref" = "missing"
    ∧ (schAudit [("ocf.uid", ({ status := "wontfix" } : KnownCheck))]
          ([{ pattern_id := "ocf.uid" }, { pattern_id := "opf.itemref" }] : List SchematronCheck)).implemented
        = List.countP
            (fun c => schClassify [("ocf.uid", ({ status := "wontfix" } : KnownCheck))] c.pattern_id
              = "implemented")
            ([{ pattern_id := "ocf.uid" }, { pattern_id := "opf.itemref" }] : List SchematronCheck) := by
  refine ⟨?_, ?_, ?_⟩
  · exact (schematron_audit_classification [("ocf.uid", ({ status := "wontfix" } : KnownCheck))]
      []).2.2.2.1 "ocf.uid" { status := "wontfix" } (by decide) (by decide)
  · exact (schematron_audit_classification [("ocf.uid", ({ status := "wontfix" } : KnownCheck))]
      []).2.2.2.2.2 "opf.itemref" (by decide)
  · exact (schematron_audit_classification [("ocf.uid", ({ status := "wontfix" } : KnownCheck))]
      ([{ pattern_id := "ocf.uid" }, { pattern_id := "opf.itemref" }] : List SchematronCheck)).1

/-! ### C10 — applying overrides is a frame operation -/

lemma strip_map_override_step (c : String) (o : OverrideEntry)
    (msgs : List MessageInfo) :
    ((msgs.map fun m => if m.code = c then
        { m with override_status := o.status, override_note := o.note } else m).map
      stripOverrideFields) = msgs.map stripOverrideFields := by
  rw [List.map_map]
  apply List.map_congr_left
  intro m _
  by_cases h : m.code = c <;> simp [Function.comp, stripOverrideFields, h]

/-- C10: applying the override table neither adds nor removes rule
records — the mapped record list keeps its length, order and every
field other than `override_status`/`override_note` (first conjunct:
stripping those two fields commutes with `apply_overrides`; second
conjunct: the code sequence is untouched) — and an override entry whose
code is not among the enumerated messages is silently ignored (third
conjunct). -/
theorem apply_overrides_frame (overrides : List (String × OverrideEntry))
    (msgs : List MessageInfo) :
    ((apply_overrides overrides msgs).map stripOverrideFields
        = msgs.map stripOverrideFields)
    ∧ ((apply_overrides overrides msgs).map MessageInfo.code
        = msgs.map MessageInfo.code)
    ∧ (∀ c o, c ∉ msgs.map MessageInfo.code →
        apply_overrides ((c, o) :: overrides) msgs
          = apply_overrides overrides msgs) := by
  have hstrip : ∀ (ov : List (String × OverrideEntry)) (l : List MessageInfo),
      (apply_overrides ov l).map stripOverrideFields = l.map stripOverrideFields := by
    intro ov
    induction ov with
    | nil => intro l; rfl
    | cons co t ih =>
        intro l
        simp only [apply_overrides, List.foldl_cons] at ih ⊢
        rw [ih, strip_map_override_step]
  have hcode : ∀ l : List MessageInfo,
      (l.map stripOverrideFields).map MessageInfo.code = l.map MessageInfo.code := by
    intro l
    rw [List.map_map]
    rfl
  refine ⟨hstrip overrides msgs, ?_, ?_⟩
  · rw [← hcode (apply_overrides overrides msgs), hstrip overrides msgs, hcode]
  · intro c o hnot
    simp only [apply_overrides, List.foldl_cons]
    have hid : (msgs.map fun m => if m.code = c then
        { m with override_status := o.status, override_note := o.note } else m)
        = msgs := by
      have := List.map_congr_left (l := msgs)
        (f := fun m : MessageInfo => if m.code = c then
          { m with override_status := o.status, override_note := o.note } else m)
        (g := id) ?_
      · simpa using this
      · intro m hm
        have : m.code ≠ c := fun hmc =>
          hnot (hmc ▸ List.mem_map_of_mem MessageInfo.code hm)
        simp [this]
    rw [hid]

/-- Witness for C10: an override keyed by a code absent from the
message set leaves the run unchanged, and stripping the override
fields shows the other fields of present records untouched. -/
theorem apply_overrides_frame_witness :
    ((apply_overrides [("ZZZ-999", { status := "wontfix" })]
        [{ code := "OPF-001", severity := "ERROR" }]).map stripOverrideFields
      = [{ code := "OPF-001", severity := "ERROR" : MessageInfo }].map
          stripOverrideFields)
    ∧ apply_overrides [("ZZZ-999", { status := "wontfix" })]
          [{ code := "OPF-001", severity := "ERROR" }]
        = apply_overrides [] [{ code := "OPF-001", severity := "ERROR" }] := by
  constructor
  · exact (apply_overrides_frame [("ZZZ-999", { status := "wontfix" })]
      [{ code := "OPF-001", severity := "ERROR" }]).1
  · exact (apply_overrides_frame [] [{ code := "OPF-001", severity := "ERROR" }]).2.2
      "ZZZ-999" { status := "wontfix" } (by decide)

end EpubVerify
